import Mathlib

/-!
Verification development for the "Workbook Reporter" script
(`read-excel.py`): a shallow embedding of the script's data model and
control flow, followed by theorems about the properties the specification
states.

Modelling conventions:
* A spreadsheet cell is a `Cell`: null (Python `None`), a string, a
  number (modelled as `ℚ`; the exact textual rendering of numbers is
  abstracted by `numStr`, no property depends on it), a boolean, or
  `other s` — any non-primitive value (date/time, ...) carried by its
  canonical string form `s` (what Python `str()` returns for it).
* Python `dict(zip(headers, row))` is embedded faithfully: `List.zip`
  truncates to the shorter list, and `pyDict` folds the pairs from the
  left into an association list with Python's dict semantics (a repeated
  key keeps its first position and takes the latest value).
* `json.dump(data, f, indent=2, default=str)` is embedded by
  `dataToJson`: values are serialized by `cellToJson` (with the
  `default=str` fallback for non-primitive values), object keys by
  `keyToString`, which fails (Python `TypeError`) on a non-primitive key.
* Effects are made explicit through `Env`: the outcome of loading the
  workbook and the outcome of opening each output file for writing are
  inputs; `processSheet`, `runSheets`, `tryBody` and `main` mirror the
  script's straight-line control flow, with the console modelled as the
  list of printed strings (one entry per `print` call), the disk as the
  list of (filename, JSON) writes, and the top-level `try/except` as the
  `match` in `main`.
-/

/-- A spreadsheet cell value as produced by the workbook reader. -/
inductive Cell where
  | null
  | str (s : String)
  | num (q : ℚ)
  | bool (b : Bool)
  | other (s : String)
deriving DecidableEq

/-- A JSON value (the shape of what `json.dump` writes). -/
inductive Json where
  | null
  | str (s : String)
  | num (q : ℚ)
  | bool (b : Bool)
  | arr (elems : List Json)
  | obj (fields : List (String × Json))

/-- A sheet of the workbook: its name and its rows, as materialised by
`list(sheet.iter_rows(values_only=True))`. -/
structure Sheet where
  name : String
  rows : List (List Cell)

/-- A Python exception, carried by its description (`str(e)`). -/
structure PyError where
  msg : String
deriving DecidableEq

/-- The effect environment: the outcome of `openpyxl.load_workbook` and,
for each file name, the outcome of `open(output_file, 'w')`
(`none` = the open succeeds, `some e` = it raises `e`). -/
structure Env where
  loadResult : Except PyError (List Sheet)
  writeResult : String → Option PyError

/-- The keys of an association list. -/
def keysOf (l : List (Cell × Cell)) : List Cell := l.map Prod.fst

/-- Update one entry: the pair with key `k` takes the value `v`. -/
def updEntry (k v : Cell) (p : Cell × Cell) : Cell × Cell :=
  if p.1 = k then (k, v) else p

/-- One Python dict insertion `d[k] = v`: if the key is present its value
is updated in place, otherwise the pair is appended. -/
def pyInsert (d : List (Cell × Cell)) (k v : Cell) : List (Cell × Cell) :=
  if k ∈ keysOf d then d.map (updEntry k v)
  else d ++ [(k, v)]

/-- Folding a pair list into a Python dict, left to right. -/
def pyDictAux : List (Cell × Cell) → List (Cell × Cell) → List (Cell × Cell)
  | d, [] => d
  | d, (k, v) :: rest => pyDictAux (pyInsert d k v) rest

/-- Python `dict(pairs)`: build a dict by inserting the pairs in order. -/
def pyDict (l : List (Cell × Cell)) : List (Cell × Cell) := pyDictAux [] l

/-- Python `d.get(k)` on an association list (first matching key). -/
def dictGet (k : Cell) : List (Cell × Cell) → Option Cell
  | [] => none
  | (k0, v) :: rest => if k = k0 then some v else dictGet k rest

/-- The value paired with the LAST occurrence of `k` in a pair list. -/
def lastVal (k : Cell) : List (Cell × Cell) → Option Cell
  | [] => none
  | (k0, v) :: rest =>
    match lastVal k rest with
    | some v' => some v'
    | none => if k = k0 then some v else none

/-- Keep the first occurrence of every element, in order. -/
def firstKeys : List Cell → List Cell
  | [] => []
  | k :: rest => k :: (firstKeys rest).filter (fun x => decide (x ≠ k))

/-- Textual rendering of a number. (Abstraction of Python's `str()` on
ints/floats; no verified property depends on the exact digits.) -/
def numStr (q : ℚ) : String :=
  if q.den = 1 then toString q.num else toString q.num ++ "/" ++ toString q.den

/-- Python `str()` of a cell value. -/
def pyStr : Cell → String
  | Cell.null => "None"
  | Cell.str s => s
  | Cell.num q => numStr q
  | Cell.bool b => if b then "True" else "False"
  | Cell.other s => s

/-- `True` for values JSON serializes natively (str, number, bool, None). -/
def isPrimitive : Cell → Bool
  | Cell.other _ => false
  | _ => true

/-- Serialization of a cell used as a JSON value: primitives map to their
native JSON form, anything else goes through the `default=str` fallback. -/
def cellToJson : Cell → Json
  | Cell.null => Json.null
  | Cell.str s => Json.str s
  | Cell.num q => Json.num q
  | Cell.bool b => Json.bool b
  | Cell.other s => Json.str s

/-- Serialization of a cell used as a JSON object key: `json.dump`
stringifies str/number/bool/None keys and raises `TypeError` (modelled by
`none`) on any other key — `default=str` does not apply to keys. -/
def keyToString : Cell → Option String
  | Cell.null => some "null"
  | Cell.str s => some s
  | Cell.num q => some (numStr q)
  | Cell.bool b => some (if b then "true" else "false")
  | Cell.other _ => none

/-- Map a fallible function over a list, failing if any element fails. -/
def optMapList (f : α → Option β) : List α → Option (List β)
  | [] => some []
  | a :: l =>
    match f a, optMapList f l with
    | some b, some bs => some (b :: bs)
    | _, _ => none

/-- Serialize one record (one row's dict) to a JSON object. -/
def recordToJson (rec : List (Cell × Cell)) : Option Json :=
  match optMapList
      (fun p =>
        match keyToString p.1 with
        | some k => some (k, cellToJson p.2)
        | none => none) rec with
  | some fields => some (Json.obj fields)
  | none => none

/-- Serialize the full record list of a sheet to a JSON array. -/
def dataToJson (data : List (List (Cell × Cell))) : Option Json :=
  match optMapList recordToJson data with
  | some objs => some (Json.arr objs)
  | none => none

/-- The `TypeError` that `json.dump` raises on a non-primitive key. -/
def typeError : PyError :=
  { msg := "keys must be str, int, float, bool or None" }

/-- The hardcoded input path. -/
def filepath : String := "controll offers.xlsx"

/-- `sheet_name.replace(" ", "_")`: Python `str.replace` specialised to
the one-character pattern the script uses — every space becomes an
underscore. -/
def replaceSpaces (s : String) : String :=
  String.mk (s.data.map (fun c => if c = ' ' then '_' else c))

/-- The export file name of a sheet: spaces become underscores and the
fixed suffix is appended. -/
def exportName (sheetName : String) : String :=
  replaceSpaces sheetName ++ "_data.json"

/-- The separator line printed under each sheet header. -/
def sepLine : String := String.mk (List.replicate 80 '─')

/-- The displayed column list: null headers are skipped, the rest are
rendered with `str()`. -/
def displayCols (headers : List Cell) : List String :=
  (headers.filter (fun h => decide (h ≠ Cell.null))).map pyStr

/-- Crude rendering of a record for the row preview. (Abstraction of the
Python dict repr; no verified property depends on its text.) -/
def dictStr (d : List (Cell × Cell)) : String :=
  "\x7b" ++
    String.intercalate ", " (d.map (fun p => pyStr p.1 ++ ": " ++ pyStr p.2)) ++
    "\x7d"

/-- The preview lines for the first rows, numbered from `i`. -/
def previewLines (headers : List Cell) : Nat → List (List Cell) → List String
  | _, [] => []
  | i, r :: rest =>
    ("\n  " ++ toString i ++ ". " ++ dictStr (pyDict (headers.zip r))) ::
      previewLines headers (i + 1) rest

/-- The full record list of a sheet: one dict per data row. -/
def buildData (headers : List Cell) (dataRows : List (List Cell)) :
    List (List (Cell × Cell)) :=
  dataRows.map (fun r => pyDict (headers.zip r))

/-- Process one sheet (loop body, source lines 16–47): returns the console
lines printed for the sheet, and either the file write performed for it
(`none` for an empty sheet) or the exception that aborted it. -/
def processSheet (env : Env) (s : Sheet) :
    List String × Except PyError (Option (String × Json)) :=
  let head := ["\n📋 Sheet: " ++ s.name, sepLine]
  match s.rows with
  | [] => (head ++ ["  Empty sheet"], Except.ok none)
  | headers :: dataRows =>
    let console := head ++
      ["  Columns: " ++ String.intercalate ", " (displayCols headers),
       "  Total rows (including header): " ++ toString s.rows.length,
       "\n  First 10 rows:"] ++
      previewLines headers 1 (dataRows.take 10)
    let outputFile := exportName s.name
    match env.writeResult outputFile with
    | some e => (console, Except.error e)
    | none =>
      match dataToJson (buildData headers dataRows) with
      | none => (console, Except.error typeError)
      | some j =>
        (console ++ ["\n  ✅ Data exported to: " ++ outputFile],
         Except.ok (some (outputFile, j)))

/-- Accumulated outcome of the sheet loop. -/
structure LoopResult where
  console : List String
  writes : List (String × Json)
  err : Option PyError

/-- The sheet loop: processes the sheets in order, accumulating console
output and file writes, and stops at the first exception. -/
def runSheets (env : Env) : List Sheet → LoopResult
  | [] => { console := [], writes := [], err := none }
  | s :: rest =>
    let pr := processSheet env s
    match pr.2 with
    | Except.error e => { console := pr.1, writes := [], err := some e }
    | Except.ok w =>
      let r := runSheets env rest
      { console := pr.1 ++ r.console,
        writes := w.toList ++ r.writes,
        err := r.err }

/-- The body of the `try` block (source lines 6–49). -/
def tryBody (env : Env) : LoopResult :=
  let intro := ["📂 Reading file: " ++ filepath ++ "\n"]
  match env.loadResult with
  | Except.error e => { console := intro, writes := [], err := some e }
  | Except.ok wb =>
    let sheetsLine :=
      "📄 Sheets found: " ++ String.intercalate ", " (wb.map Sheet.name) ++ "\n"
    let r := runSheets env wb
    match r.err with
    | none =>
      { console := intro ++ [sheetsLine] ++ r.console ++ ["\n✅ Done!"],
        writes := r.writes, err := none }
    | some e =>
      { console := intro ++ [sheetsLine] ++ r.console,
        writes := r.writes, err := some e }

/-- The final state of one program run. -/
structure RunResult where
  console : List String
  writes : List (String × Json)
  exitCode : Nat

/-- The stack trace printed by `traceback.print_exc()`. -/
def tracebackText (e : PyError) : String :=
  "Traceback (most recent call last): " ++ e.msg

/-- The whole program: the `try` body wrapped in the `except Exception`
handler (source lines 51–55), which prints the error line and the trace and exits with 1;
falling off the end of the script exits with 0. -/
def runProgram (env : Env) : RunResult :=
  let r := tryBody env
  match r.err with
  | none => { console := r.console, writes := r.writes, exitCode := 0 }
  | some e =>
    { console := r.console ++ ["❌ Error: " ++ e.msg, tracebackText e],
      writes := r.writes, exitCode := 1 }

/-! ### Concrete fixtures -/

/-- The workbook of the spec's concrete example: one sheet "Offers". -/
def offersSheet : Sheet :=
  { name := "Offers",
    rows := [[Cell.str "ID", Cell.str "Price"],
             [Cell.num 1, Cell.num 9.5],
             [Cell.num 2, Cell.null]] }

/-- An environment in which loading yields the Offers workbook and every
file write succeeds. -/
def envOffers : Env :=
  { loadResult := Except.ok [offersSheet], writeResult := fun _ => none }

/-- The exception raised when the input workbook does not exist. -/
def fileNotFound : PyError :=
  { msg := "No such file or directory: controll offers.xlsx" }

/-- An environment in which loading the workbook fails. -/
def envMissingFile : Env :=
  { loadResult := Except.error fileNotFound, writeResult := fun _ => none }

/-- A first sheet whose processing succeeds. -/
def sheetAlpha : Sheet :=
  { name := "Alpha", rows := [[Cell.str "X"], [Cell.num 1]] }

/-- A second sheet whose export write will fail. -/
def sheetBeta : Sheet :=
  { name := "Beta", rows := [[Cell.str "Y"], [Cell.num 2]] }

/-- A third sheet that is never reached. -/
def sheetGamma : Sheet :=
  { name := "Gamma", rows := [[Cell.str "Z"], [Cell.num 3]] }

/-- The I/O error injected on the second sheet's export file. -/
def diskFull : PyError := { msg := "No space left on device" }

/-- An environment in which opening Beta's export file raises an error and
everything else succeeds. -/
def envPartialFail : Env :=
  { loadResult := Except.ok [sheetAlpha, sheetBeta, sheetGamma],
    writeResult := fun f => if f = "Beta_data.json" then some diskFull else none }

/-! ### Dict semantics lemmas -/

theorem keysOf_nil : keysOf [] = [] := rfl

theorem keysOf_cons (p : Cell × Cell) (l : List (Cell × Cell)) :
    keysOf (p :: l) = p.1 :: keysOf l := rfl

theorem keysOf_append (l₁ l₂ : List (Cell × Cell)) :
    keysOf (l₁ ++ l₂) = keysOf l₁ ++ keysOf l₂ := by
  simp [keysOf]

theorem updEntry_of_eq (k v k1 v1 : Cell) (h : k1 = k) :
    updEntry k v (k1, v1) = (k, v) := by
  unfold updEntry
  exact if_pos h

theorem updEntry_of_ne (k v k1 v1 : Cell) (h : k1 ≠ k) :
    updEntry k v (k1, v1) = (k1, v1) := by
  unfold updEntry
  exact if_neg h

theorem keysOf_update (d : List (Cell × Cell)) (k v : Cell) :
    keysOf (d.map (updEntry k v)) = keysOf d := by
  induction d with
  | nil => rfl
  | cons p rest ih =>
    obtain ⟨k1, v1⟩ := p
    by_cases h : k1 = k
    · subst h
      rw [List.map_cons, updEntry_of_eq k1 v k1 v1 rfl, keysOf_cons, keysOf_cons, ih]
    · rw [List.map_cons, updEntry_of_ne k v k1 v1 h, keysOf_cons, keysOf_cons, ih]

theorem keysOf_pyInsert (d : List (Cell × Cell)) (k v : Cell) :
    keysOf (pyInsert d k v) =
      if k ∈ keysOf d then keysOf d else keysOf d ++ [k] := by
  unfold pyInsert
  by_cases h : k ∈ keysOf d
  · rw [if_pos h, if_pos h, keysOf_update]
  · rw [if_neg h, if_neg h, keysOf_append]
    rfl

theorem mem_keysOf_pyDictAux (l : List (Cell × Cell)) :
    ∀ (d : List (Cell × Cell)) (k : Cell),
      k ∈ keysOf (pyDictAux d l) ↔ k ∈ keysOf d ∨ k ∈ keysOf l := by
  induction l with
  | nil => intro d k; simp [pyDictAux, keysOf]
  | cons p rest ih =>
    intro d k
    obtain ⟨k0, v0⟩ := p
    rw [show pyDictAux d ((k0, v0) :: rest) = pyDictAux (pyInsert d k0 v0) rest
          from rfl,
        ih (pyInsert d k0 v0) k, keysOf_pyInsert]
    by_cases h : k0 ∈ keysOf d
    · simp only [if_pos h, keysOf_cons, List.mem_cons]
      constructor
      · rintro (hk | hk)
        · exact Or.inl hk
        · exact Or.inr (Or.inr hk)
      · rintro (hk | hk | hk)
        · exact Or.inl hk
        · exact Or.inl (hk ▸ h)
        · exact Or.inr hk
    · simp only [if_neg h, keysOf_cons, List.mem_cons, List.mem_append,
        List.mem_singleton]
      tauto

theorem mem_keysOf_pyDict (l : List (Cell × Cell)) (k : Cell) :
    k ∈ keysOf (pyDict l) ↔ k ∈ keysOf l := by
  rw [pyDict, mem_keysOf_pyDictAux]
  simp [keysOf]

theorem keysOf_pyDictAux_eq (l : List (Cell × Cell)) :
    ∀ d : List (Cell × Cell),
      keysOf (pyDictAux d l) =
        keysOf d ++
          (firstKeys (keysOf l)).filter (fun x => decide (x ∉ keysOf d)) := by
  induction l with
  | nil => intro d; simp [pyDictAux, firstKeys, keysOf]
  | cons p rest ih =>
    intro d
    obtain ⟨k0, v0⟩ := p
    rw [show pyDictAux d ((k0, v0) :: rest) = pyDictAux (pyInsert d k0 v0) rest
          from rfl,
        ih (pyInsert d k0 v0), keysOf_pyInsert, keysOf_cons]
    by_cases h : k0 ∈ keysOf d
    · simp only [if_pos h]
      have hfk : firstKeys (k0 :: keysOf rest) =
          k0 :: (firstKeys (keysOf rest)).filter (fun x => decide (x ≠ k0)) := rfl
      rw [hfk, List.filter_cons]
      have hk0 : (decide (k0 ∉ keysOf d)) = false := by simp [h]
      rw [hk0]
      simp only [Bool.false_eq_true, if_false, List.filter_filter]
      congr 1
      apply List.filter_congr
      intro x _
      by_cases hx : x ∈ keysOf d
      · simp [hx]
      · have : x ≠ k0 := fun hxx => hx (hxx ▸ h)
        simp [hx, this]
    · simp only [if_neg h]
      have hfk : firstKeys (k0 :: keysOf rest) =
          k0 :: (firstKeys (keysOf rest)).filter (fun x => decide (x ≠ k0)) := rfl
      rw [hfk, List.filter_cons]
      have hk0 : (decide (k0 ∉ keysOf d)) = true := by simp [h]
      rw [hk0]
      simp only [if_true, List.append_assoc, List.singleton_append,
        List.filter_filter]
      congr 2
      apply List.filter_congr
      intro x _
      by_cases hx : x = k0
      · subst hx
        simp [h]
      · by_cases hd : x ∈ keysOf d <;> simp [hx, hd, keysOf_append, keysOf]

theorem keysOf_pyDict (l : List (Cell × Cell)) :
    keysOf (pyDict l) = firstKeys (keysOf l) := by
  rw [pyDict, keysOf_pyDictAux_eq]
  simp only [keysOf_nil, List.nil_append]
  rw [List.filter_eq_self]
  intro a _
  simp [keysOf]

theorem dictGet_nil (k : Cell) : dictGet k [] = none := rfl

theorem dictGet_cons (k k0 v0 : Cell) (rest : List (Cell × Cell)) :
    dictGet k ((k0, v0) :: rest) =
      if k = k0 then some v0 else dictGet k rest := rfl

theorem lastVal_cons (k k0 v0 : Cell) (rest : List (Cell × Cell)) :
    lastVal k ((k0, v0) :: rest) =
      match lastVal k rest with
      | some v' => some v'
      | none => if k = k0 then some v0 else none := rfl

theorem dictGet_map_update_of_ne (d : List (Cell × Cell)) (k k0 v0 : Cell)
    (hne : k ≠ k0) :
    dictGet k (d.map (updEntry k0 v0)) = dictGet k d := by
  induction d with
  | nil => rfl
  | cons p rest ih =>
    obtain ⟨k1, v1⟩ := p
    by_cases h1 : k1 = k0
    · rw [List.map_cons, updEntry_of_eq k0 v0 k1 v1 h1, dictGet_cons,
        dictGet_cons, ih, if_neg hne, if_neg (fun hk => hne (hk.trans h1))]
    · rw [List.map_cons, updEntry_of_ne k0 v0 k1 v1 h1, dictGet_cons,
        dictGet_cons, ih]

theorem dictGet_map_update_of_mem (d : List (Cell × Cell)) (k0 v0 : Cell)
    (h : k0 ∈ keysOf d) :
    dictGet k0 (d.map (updEntry k0 v0)) = some v0 := by
  induction d with
  | nil => simp [keysOf] at h
  | cons p rest ih =>
    obtain ⟨k1, v1⟩ := p
    by_cases h1 : k1 = k0
    · rw [List.map_cons, updEntry_of_eq k0 v0 k1 v1 h1, dictGet_cons, if_pos rfl]
    · have hmem : k0 ∈ keysOf rest := by
        rw [keysOf_cons] at h
        cases List.mem_cons.mp h with
        | inl h' => exact absurd h'.symm h1
        | inr h' => exact h'
      rw [List.map_cons, updEntry_of_ne k0 v0 k1 v1 h1, dictGet_cons,
        if_neg (fun hk => h1 hk.symm), ih hmem]

theorem dictGet_append_of_none (l₁ l₂ : List (Cell × Cell)) (k : Cell)
    (h : dictGet k l₁ = none) :
    dictGet k (l₁ ++ l₂) = dictGet k l₂ := by
  induction l₁ with
  | nil => rfl
  | cons p rest ih =>
    obtain ⟨k1, v1⟩ := p
    rw [dictGet_cons] at h
    by_cases hk : k = k1
    · rw [if_pos hk] at h
      cases h
    · rw [if_neg hk] at h
      rw [List.cons_append, dictGet_cons, if_neg hk, ih h]

theorem dictGet_append_of_some (l₁ l₂ : List (Cell × Cell)) (k v : Cell)
    (h : dictGet k l₁ = some v) :
    dictGet k (l₁ ++ l₂) = some v := by
  induction l₁ with
  | nil => cases h
  | cons p rest ih =>
    obtain ⟨k1, v1⟩ := p
    rw [dictGet_cons] at h
    by_cases hk : k = k1
    · rw [if_pos hk] at h
      rw [List.cons_append, dictGet_cons, if_pos hk]
      exact h
    · rw [if_neg hk] at h
      rw [List.cons_append, dictGet_cons, if_neg hk, ih h]

theorem dictGet_eq_none_iff (k : Cell) (l : List (Cell × Cell)) :
    dictGet k l = none ↔ k ∉ keysOf l := by
  induction l with
  | nil => simp [dictGet, keysOf]
  | cons p rest ih =>
    obtain ⟨k1, v1⟩ := p
    rw [dictGet_cons, keysOf_cons]
    by_cases hk : k = k1
    · rw [if_pos hk]
      simp [hk]
    · rw [if_neg hk]
      simp [hk, ih]

theorem dictGet_pyInsert (d : List (Cell × Cell)) (k k0 v0 : Cell) :
    dictGet k (pyInsert d k0 v0) =
      if k = k0 then some v0 else dictGet k d := by
  unfold pyInsert
  by_cases hmem : k0 ∈ keysOf d
  · rw [if_pos hmem]
    by_cases hk : k = k0
    · subst hk
      rw [if_pos rfl]
      exact dictGet_map_update_of_mem d k v0 hmem
    · rw [if_neg hk]
      exact dictGet_map_update_of_ne d k k0 v0 hk
  · rw [if_neg hmem]
    by_cases hk : k = k0
    · subst hk
      have hnone : dictGet k d = none := (dictGet_eq_none_iff k d).mpr hmem
      rw [dictGet_append_of_none d _ k hnone]
      simp [dictGet]
    · rw [if_neg hk]
      cases hd : dictGet k d with
      | none =>
        rw [dictGet_append_of_none d _ k hd]
        simp [dictGet, hk, hd]
      | some v =>
        rw [dictGet_append_of_some d _ k v hd]

theorem dictGet_pyDictAux_of_lastVal_none (l : List (Cell × Cell)) :
    ∀ (d : List (Cell × Cell)) (k : Cell), lastVal k l = none →
      dictGet k (pyDictAux d l) = dictGet k d := by
  induction l with
  | nil => intro d k _; rfl
  | cons p rest ih =>
    intro d k h
    obtain ⟨k0, v0⟩ := p
    cases hr : lastVal k rest with
    | some v =>
      rw [lastVal_cons, hr] at h
      cases h
    | none =>
      rw [lastVal_cons, hr] at h
      have hne : k ≠ k0 := by
        intro hk
        rw [if_pos hk] at h
        cases h
      rw [show pyDictAux d ((k0, v0) :: rest) =
            pyDictAux (pyInsert d k0 v0) rest from rfl,
        ih (pyInsert d k0 v0) k hr, dictGet_pyInsert, if_neg hne]

theorem dictGet_pyDictAux_of_lastVal_some (l : List (Cell × Cell)) :
    ∀ (d : List (Cell × Cell)) (k v : Cell), lastVal k l = some v →
      dictGet k (pyDictAux d l) = some v := by
  induction l with
  | nil => intro d k v h; cases h
  | cons p rest ih =>
    intro d k v h
    obtain ⟨k0, v0⟩ := p
    rw [show pyDictAux d ((k0, v0) :: rest) =
          pyDictAux (pyInsert d k0 v0) rest from rfl]
    cases hr : lastVal k rest with
    | some v' =>
      rw [lastVal_cons, hr] at h
      rw [ih (pyInsert d k0 v0) k v' hr]
      exact h
    | none =>
      rw [lastVal_cons, hr] at h
      by_cases hk : k = k0
      · rw [if_pos hk] at h
        rw [dictGet_pyDictAux_of_lastVal_none rest _ k hr, dictGet_pyInsert,
          if_pos hk]
        exact h
      · rw [if_neg hk] at h
        cases h

theorem dictGet_pyDict (l : List (Cell × Cell)) (k : Cell) :
    dictGet k (pyDict l) = lastVal k l := by
  cases h : lastVal k l with
  | none => rw [pyDict, dictGet_pyDictAux_of_lastVal_none l [] k h, dictGet_nil]
  | some v => rw [pyDict, dictGet_pyDictAux_of_lastVal_some l [] k v h]

theorem lastVal_eq_none_iff (k : Cell) (l : List (Cell × Cell)) :
    lastVal k l = none ↔ k ∉ keysOf l := by
  induction l with
  | nil => simp [lastVal, keysOf]
  | cons p rest ih =>
    obtain ⟨k0, v0⟩ := p
    rw [keysOf_cons, lastVal_cons]
    cases hr : lastVal k rest with
    | some v =>
      have hmem : k ∈ keysOf rest := by
        by_contra hc
        rw [ih.mpr hc] at hr
        cases hr
      simp [List.mem_cons, hmem]
    | none =>
      by_cases hk : k = k0
      · rw [if_pos hk]
        simp [hk]
      · rw [if_neg hk]
        simp [hk, ih.mp hr]
theorem pyDictAux_of_nodup (l : List (Cell × Cell)) :
    ∀ d : List (Cell × Cell), (keysOf d ++ keysOf l).Nodup →
      pyDictAux d l = d ++ l := by
  induction l with
  | nil => intro d _; simp [pyDictAux]
  | cons p rest ih =>
    intro d h
    obtain ⟨k0, v0⟩ := p
    rw [keysOf_cons] at h
    have hk0d : k0 ∉ keysOf d := by
      rcases List.nodup_append.mp h with ⟨_, _, hdisj⟩
      intro hmem
      exact hdisj hmem (List.mem_cons_self _ _)
    have hins : pyInsert d k0 v0 = d ++ [(k0, v0)] := by
      unfold pyInsert
      rw [if_neg hk0d]
    rw [show pyDictAux d ((k0, v0) :: rest) = pyDictAux (pyInsert d k0 v0) rest
          from rfl, hins]
    have hnd : (keysOf (d ++ [(k0, v0)]) ++ keysOf rest).Nodup := by
      rw [keysOf_append]
      simpa [List.append_assoc] using h
    rw [ih (d ++ [(k0, v0)]) hnd, List.append_assoc]
    rfl

theorem pyDict_of_nodup (l : List (Cell × Cell)) (h : (keysOf l).Nodup) :
    pyDict l = l := by
  rw [pyDict, pyDictAux_of_nodup l [] (by simpa [keysOf] using h)]
  rfl

/-! ### Zip and serialization lemmas -/

theorem keysOf_zip (h : List Cell) :
    ∀ r : List Cell, keysOf (h.zip r) = h.take r.length := by
  induction h with
  | nil => intro r; simp [keysOf]
  | cons a h' ih =>
    intro r
    cases r with
    | nil => simp [keysOf]
    | cons b r' => simp [keysOf_cons, ih r']

theorem zip_take (h : List Cell) :
    ∀ r : List Cell, h.zip r = h.zip (r.take h.length) := by
  induction h with
  | nil => intro r; simp
  | cons a h' ih =>
    intro r
    cases r with
    | nil => simp
    | cons b r' =>
      simp only [List.zip_cons_cons, List.length_cons, List.take_succ_cons]
      rw [← ih r']

theorem optMapList_length (f : α → Option β) (l : List α) :
    ∀ l' : List β, optMapList f l = some l' → l'.length = l.length := by
  induction l with
  | nil =>
    intro l' h
    simp only [optMapList] at h
    cases h
    rfl
  | cons a rest ih =>
    intro l' h
    simp only [optMapList] at h
    cases hf : f a with
    | none => rw [hf] at h; cases h
    | some b =>
      rw [hf] at h
      cases hrest : optMapList f rest with
      | none => rw [hrest] at h; cases h
      | some bs =>
        rw [hrest] at h
        cases h
        simp [ih bs hrest]

theorem optMapList_isSome (f : α → Option β) (l : List α)
    (h : ∀ a ∈ l, (f a).isSome = true) : (optMapList f l).isSome = true := by
  induction l with
  | nil => simp [optMapList]
  | cons a rest ih =>
    have ha := h a (List.mem_cons_self a rest)
    obtain ⟨b, hb⟩ := Option.isSome_iff_exists.mp ha
    have hrest := ih (fun x hx => h x (List.mem_cons_of_mem a hx))
    obtain ⟨bs, hbs⟩ := Option.isSome_iff_exists.mp hrest
    simp [optMapList, hb, hbs]

/-! ### Claim theorems -/

/-- C1: for every non-empty sheet whose processing succeeds with an
Export File, the number of records serialized into the file's JSON array
equals the sheet's total row count minus one (one record per data row,
none for the header row). -/
theorem c1_record_count (env : Env) (s : Sheet) (fn : String)
    (recs : List Json)
    (h : (processSheet env s).2 = Except.ok (some (fn, Json.arr recs))) :
    recs.length = s.rows.length - 1 := by
  obtain ⟨name, rows⟩ := s
  cases rows with
  | nil => simp [processSheet] at h
  | cons headers dataRows =>
    simp only [processSheet] at h
    cases hw : (Env.writeResult env (exportName name)) with
    | some e => rw [hw] at h; cases h
    | none =>
      rw [hw] at h
      cases hj : dataToJson (buildData headers dataRows) with
      | none => rw [hj] at h; cases h
      | some j =>
        rw [hj] at h
        have h2 : j = Json.arr recs := by
          injection h with h
          injection h with h
          injection h with h1 h2
        subst h2
        unfold dataToJson at hj
        cases ho : optMapList recordToJson (buildData headers dataRows) with
        | none => rw [ho] at hj; cases hj
        | some objs =>
          rw [ho] at hj
          injection hj with hj
          injection hj with hj
          subst hj
          have hlen := optMapList_length recordToJson
            (buildData headers dataRows) objs ho
          simp only [buildData, List.length_map] at hlen
          simp [hlen]

/-- C1 witness: the Offers example run exports exactly two records for a
sheet with three rows. -/
theorem c1_record_count_witness :
    ([Json.obj [("ID", Json.num 1), ("Price", Json.num 9.5)],
      Json.obj [("ID", Json.num 2), ("Price", Json.null)]] : List Json).length
      = offersSheet.rows.length - 1 :=
  c1_record_count envOffers offersSheet "Offers_data.json"
    [Json.obj [("ID", Json.num 1), ("Price", Json.num 9.5)],
     Json.obj [("ID", Json.num 2), ("Price", Json.null)]] rfl

/-- C4 counterexample: with headers `["A", "B"]` and the one-cell data
row `[1]`, the non-duplicate header names include `"B"`, yet `"B"` is not
a key of the record built for that row — the key set does depend on the
row's length, contradicting the claim. -/
theorem c4_counterexample :
    Cell.str "B" ∈ ([Cell.str "A", Cell.str "B"] : List Cell) ∧
    Cell.str "B" ∉
      keysOf (pyDict (List.zip [Cell.str "A", Cell.str "B"] [Cell.num 1])) := by
  decide

/-- C4 (amended): a record's key set equals the header entries of the
zipped part of the Header Row, i.e. the first `min(|header|, |row|)`
header positions (duplicates collapsed, null entries included) — not the
whole Header Row independently of the row's length. -/
theorem c4_key_set (headers row : List Cell) (k : Cell) :
    k ∈ keysOf (pyDict (headers.zip row)) ↔ k ∈ headers.take row.length := by
  rw [mem_keysOf_pyDict, keysOf_zip]

/-- C5 counterexample: with the Header Row `[None, "B"]` and the one-cell
data row `[7]`, the record is `{None: 7}` — the null-named position 0 is
preserved, but header position 1 (`"B"`) yields no entry at all, so not
every position of the Header Row is preserved as an entry of the Record. -/
theorem c5_counterexample :
    pyDict (List.zip [Cell.null, Cell.str "B"] [Cell.num 7]) =
      [(Cell.null, Cell.num 7)] ∧
    Cell.str "B" ∉
      keysOf (pyDict (List.zip [Cell.null, Cell.str "B"] [Cell.num 7])) := by
  decide

/-- C5 (amended): when the data row has at least as many cells as the
Header Row, every header entry — null-named positions included — occurs
as a key of the Record; a data row with more cells than header entries
has its excess cells dropped (the record only depends on the first
`|header|` cells); and null-named positions are skipped only when
displaying the column list. -/
theorem c5_positions (headers row : List Cell) :
    (headers.length ≤ row.length →
      ∀ k ∈ headers, k ∈ keysOf (pyDict (headers.zip row))) ∧
    pyDict (headers.zip row) = pyDict (headers.zip (row.take headers.length)) ∧
    displayCols (Cell.null :: headers) = displayCols headers := by
  refine ⟨?_, ?_, ?_⟩
  · intro hlen k hk
    rw [mem_keysOf_pyDict, keysOf_zip, List.take_of_length_le hlen]
    exact hk
  · rw [← zip_take]
  · simp [displayCols]

/-- C5 witness: for the Header Row `[None, "A"]` and the equally long
data row `[1, 2]`, both header entries (the null one included) are keys
of the record. -/
theorem c5_positions_witness :
    Cell.null ∈
      keysOf (pyDict (List.zip [Cell.null, Cell.str "A"]
        [Cell.num 1, Cell.num 2])) ∧
    Cell.str "A" ∈
      keysOf (pyDict (List.zip [Cell.null, Cell.str "A"]
        [Cell.num 1, Cell.num 2])) :=
  ⟨(c5_positions [Cell.null, Cell.str "A"] [Cell.num 1, Cell.num 2]).1
      (by decide) Cell.null (by decide),
   (c5_positions [Cell.null, Cell.str "A"] [Cell.num 1, Cell.num 2]).1
      (by decide) (Cell.str "A") (by decide)⟩

/-- C10: the record built by `dict(zip(headers, row))` has exactly the
keys of the zipped prefix in first-occurrence order; looking a key up
yields the value paired with its last occurrence; when the zipped keys
are distinct the record is exactly the pair list (one entry per position
of the shorter sequence); and a header name outside the zipped prefix is
entirely absent from the record (its lookup is `none`, not a null
value). -/
theorem c10_zip_dict_policy (l : List (Cell × Cell))
    (headers row : List Cell) (k : Cell) :
    keysOf (pyDict l) = firstKeys (keysOf l) ∧
    dictGet k (pyDict l) = lastVal k l ∧
    ((keysOf l).Nodup → pyDict l = l) ∧
    (k ∉ headers.take row.length →
      dictGet k (pyDict (headers.zip row)) = none) := by
  refine ⟨keysOf_pyDict l, dictGet_pyDict l k, pyDict_of_nodup l, ?_⟩
  intro hk
  rw [dictGet_pyDict]
  apply (lastVal_eq_none_iff k (headers.zip row)).mpr
  rw [keysOf_zip]
  exact hk

/-- C10 witness: a two-entry dict with distinct keys is the pair list
itself, and the trailing header `"B"` of a short row is absent from the
record. -/
theorem c10_zip_dict_policy_witness :
    pyDict [(Cell.str "A", Cell.num 1), (Cell.str "B", Cell.num 2)] =
      [(Cell.str "A", Cell.num 1), (Cell.str "B", Cell.num 2)] ∧
    dictGet (Cell.str "B")
        (pyDict (List.zip [Cell.str "A", Cell.str "B"] [Cell.num 1])) =
      none :=
  ⟨(c10_zip_dict_policy [(Cell.str "A", Cell.num 1), (Cell.str "B", Cell.num 2)]
      [] [] Cell.null).2.2.1 (by decide),
   (c10_zip_dict_policy [] [Cell.str "A", Cell.str "B"] [Cell.num 1]
      (Cell.str "B")).2.2.2 (by decide)⟩

/-- Helper: a string differs from `p ++ x` whenever its first `n`
characters differ from `p`'s (with `n` within `p`). -/
theorem ne_append_of_take_ne (s p x : String) (n : Nat)
    (hn : n ≤ p.data.length) (h : s.data.take n ≠ p.data.take n) :
    s ≠ p ++ x := by
  intro he
  apply h
  have hd : s.data = p.data ++ x.data := by
    rw [he]
    exact String.data_append p x
  rw [hd, List.take_append_of_le_length hn]

/-- C3: on the concrete Offers workbook (header `["ID", "Price"]`, data
rows `[1, 9.5]` and `[2, None]`), the run writes exactly one Export File
`Offers_data.json` containing
`[{"ID": 1, "Price": 9.5}, {"ID": 2, "Price": null}]`, the console
contains the line "  Total rows (including header): 3", and the run
succeeds. -/
theorem c3_offers_example :
    (runProgram envOffers).writes =
      [("Offers_data.json",
        Json.arr [Json.obj [("ID", Json.num 1), ("Price", Json.num 9.5)],
                  Json.obj [("ID", Json.num 2), ("Price", Json.null)]])] ∧
    "  Total rows (including header): 3" ∈ (runProgram envOffers).console ∧
    (runProgram envOffers).exitCode = 0 :=
  ⟨rfl, by decide, rfl⟩

/-- C2: an empty sheet yields the "  Empty sheet" notice, no Export File,
and the loop proceeds to the remaining sheets unchanged; a non-empty
sheet whose processing succeeds yields exactly one Export File, named by
replacing spaces in the sheet name with underscores and appending
"_data.json". -/
theorem c2_sheet_file_correspondence (env : Env) (s : Sheet)
    (rest : List Sheet) :
    (s.rows = [] →
      (processSheet env s).2 = Except.ok none ∧
      "  Empty sheet" ∈ (processSheet env s).1 ∧
      (runSheets env (s :: rest)).writes = (runSheets env rest).writes ∧
      (runSheets env (s :: rest)).err = (runSheets env rest).err) ∧
    (∀ w, s.rows ≠ [] → (processSheet env s).2 = Except.ok w →
      ∃ j, w = some (exportName s.name, j)) := by
  constructor
  · intro hrows
    obtain ⟨name, rows⟩ := s
    simp only at hrows
    subst hrows
    refine ⟨rfl, ?_, ?_, ?_⟩
    · simp [processSheet]
    · simp [runSheets, processSheet, Option.toList]
    · simp [runSheets, processSheet]
  · intro w hne hok
    obtain ⟨name, rows⟩ := s
    cases rows with
    | nil => exact absurd rfl hne
    | cons headers dataRows =>
      simp only [processSheet] at hok
      cases hw : (Env.writeResult env (exportName name)) with
      | some e => rw [hw] at hok; cases hok
      | none =>
        rw [hw] at hok
        cases hj : dataToJson (buildData headers dataRows) with
        | none => rw [hj] at hok; cases hok
        | some j =>
          rw [hj] at hok
          have : some (exportName name, j) = w := by
            injection hok with hok
          exact ⟨j, this.symm⟩

/-- C2 witness: the empty sheet "Blank" produces the notice and no file
write while the loop carries on; the Offers sheet produces exactly the
write to "Offers_data.json". -/
theorem c2_sheet_file_correspondence_witness :
    ((processSheet envOffers ⟨"Blank", []⟩).2 = Except.ok none ∧
      "  Empty sheet" ∈ (processSheet envOffers ⟨"Blank", []⟩).1 ∧
      (runSheets envOffers (⟨"Blank", []⟩ :: [offersSheet])).writes =
        (runSheets envOffers [offersSheet]).writes ∧
      (runSheets envOffers (⟨"Blank", []⟩ :: [offersSheet])).err =
        (runSheets envOffers [offersSheet]).err) ∧
    ∃ j, (some ("Offers_data.json",
        Json.arr [Json.obj [("ID", Json.num 1), ("Price", Json.num 9.5)],
                  Json.obj [("ID", Json.num 2), ("Price", Json.null)]]) :
          Option (String × Json)) =
      some (exportName offersSheet.name, j) :=
  ⟨(c2_sheet_file_correspondence envOffers ⟨"Blank", []⟩ [offersSheet]).1 rfl,
   (c2_sheet_file_correspondence envOffers offersSheet []).2
     (some ("Offers_data.json",
        Json.arr [Json.obj [("ID", Json.num 1), ("Price", Json.num 9.5)],
                  Json.obj [("ID", Json.num 2), ("Price", Json.null)]]))
     (by simp [offersSheet]) rfl⟩

/-- C6: a sheet with only a header row does not take the empty-sheet
branch (the notice is absent from its console output), reports a total
row count of 1, and exports a file containing the empty list. -/
theorem c6_header_only (env : Env) (name : String) (header : List Cell)
    (hw : env.writeResult (exportName name) = none) :
    (processSheet env ⟨name, [header]⟩).2 =
      Except.ok (some (exportName name, Json.arr [])) ∧
    "  Empty sheet" ∉ (processSheet env ⟨name, [header]⟩).1 ∧
    "  Total rows (including header): 1" ∈
      (processSheet env ⟨name, [header]⟩).1 := by
  have hps : processSheet env ⟨name, [header]⟩ =
      (["\n📋 Sheet: " ++ name, sepLine,
        "  Columns: " ++ String.intercalate ", " (displayCols header),
        "  Total rows (including header): " ++ toString (1 : Nat),
        "\n  First 10 rows:",
        "\n  ✅ Data exported to: " ++ exportName name],
       Except.ok (some (exportName name, Json.arr []))) := by
    simp [processSheet, hw, buildData, dataToJson, optMapList, previewLines]
  refine ⟨by rw [hps], ?_, ?_⟩
  · rw [hps]
    intro hmem
    simp only [List.mem_cons, List.not_mem_nil, or_false] at hmem
    rcases hmem with h | h | h | h | h | h
    · exact ne_append_of_take_ne _ "\n📋 Sheet: " name 1 (by decide)
        (by decide) h
    · exact absurd h (by decide)
    · exact ne_append_of_take_ne _ "  Columns: " _ 3 (by decide)
        (by decide) h
    · exact absurd h (by decide)
    · exact absurd h (by decide)
    · exact ne_append_of_take_ne _ "\n  ✅ Data exported to: " _ 1 (by decide)
        (by decide) h
  · rw [hps]
    simp only [List.mem_cons]
    right; right; right; left
    decide

/-- C6 witness: the header-only sheet "Header Only" exports an empty
list, prints a total of 1, and never prints the empty-sheet notice. -/
theorem c6_header_only_witness :
    (processSheet envOffers ⟨"Header Only", [[Cell.str "A"]]⟩).2 =
      Except.ok (some (exportName "Header Only", Json.arr [])) ∧
    "  Empty sheet" ∉
      (processSheet envOffers ⟨"Header Only", [[Cell.str "A"]]⟩).1 ∧
    "  Total rows (including header): 1" ∈
      (processSheet envOffers ⟨"Header Only", [[Cell.str "A"]]⟩).1 :=
  c6_header_only envOffers "Header Only" [Cell.str "A"] rfl

/-- C7: the program exits with 0 exactly when the try body raises no
exception; when an exception is raised the handler prints the error line
containing the exception's description, prints the stack trace, and the
process exits with status 1. -/
theorem c7_exit_codes (env : Env) :
    ((runProgram env).exitCode = 0 ↔ (tryBody env).err = none) ∧
    ∀ e, (tryBody env).err = some e →
      (runProgram env).exitCode = 1 ∧
      ("❌ Error: " ++ e.msg) ∈ (runProgram env).console ∧
      tracebackText e ∈ (runProgram env).console := by
  cases h : (tryBody env).err with
  | none =>
    constructor
    · simp [runProgram, h]
    · intro e he
      cases he
  | some e0 =>
    constructor
    · simp [runProgram, h]
    · intro e he
      injection he with he
      subst he
      refine ⟨by simp [runProgram, h], ?_, ?_⟩
      · simp [runProgram, h]
      · simp [runProgram, h]

/-- C7 witness: with a missing input file, the run exits with 1 and the
console contains the error line and the trace. -/
theorem c7_exit_codes_witness :
    (runProgram envMissingFile).exitCode = 1 ∧
    ("❌ Error: " ++ fileNotFound.msg) ∈ (runProgram envMissingFile).console ∧
    tracebackText fileNotFound ∈ (runProgram envMissingFile).console :=
  (c7_exit_codes envMissingFile).2 fileNotFound rfl

/-- C8: when a sheet's processing raises an exception, the loop result
keeps exactly the writes accumulated for the earlier sheets, records the
exception, and processes no later sheet; and the top-level handler
changes no writes (no cleanup or rollback). -/
theorem c8_no_rollback :
    (∀ (env : Env) (pre : List Sheet) (bad : Sheet) (post : List Sheet)
        (e : PyError) (cs0 : List String) (ws0 : List (String × Json)),
      runSheets env pre = ⟨cs0, ws0, none⟩ →
      (processSheet env bad).2 = Except.error e →
      runSheets env (pre ++ bad :: post) =
        ⟨cs0 ++ (processSheet env bad).1, ws0, some e⟩) ∧
    ∀ env : Env, (runProgram env).writes = (tryBody env).writes := by
  constructor
  · intro env pre
    induction pre with
    | nil =>
      intro bad post e cs0 ws0 hpre hbad
      rw [show runSheets env [] = ⟨[], [], none⟩ from rfl] at hpre
      injection hpre with h1 h2 h3
      subst h1
      subst h2
      simp only [List.nil_append, runSheets]
      rw [hbad]
    | cons s pre' ih =>
      intro bad post e cs0 ws0 hpre hbad
      simp only [runSheets] at hpre
      cases hs : (processSheet env s).2 with
      | error e' =>
        rw [hs] at hpre
        injection hpre with h1 h2 h3
        cases h3
      | ok w =>
        rw [hs] at hpre
        injection hpre with h1 h2 h3
        have hpre' : runSheets env pre' =
            ⟨(runSheets env pre').console, (runSheets env pre').writes,
             none⟩ := by
          rw [← h3]
        have hrec := ih bad post e (runSheets env pre').console
          (runSheets env pre').writes hpre' hbad
        simp only [List.cons_append, runSheets, List.append_eq]
        simp only [hs]
        rw [hrec, ← h1, ← h2]
        simp [List.append_assoc]
  · intro env
    simp only [runProgram]
    cases h : (tryBody env).err <;> simp [h]

/-- C8 witness: with Alpha succeeding, Beta's export write failing, and
Gamma pending, the loop keeps Alpha's write, stops with the error, and
Gamma contributes nothing; the handler leaves the writes unchanged. -/
theorem c8_no_rollback_witness :
    runSheets envPartialFail ([sheetAlpha] ++ sheetBeta :: [sheetGamma]) =
      ⟨(runSheets envPartialFail [sheetAlpha]).console ++
          (processSheet envPartialFail sheetBeta).1,
        (runSheets envPartialFail [sheetAlpha]).writes, some diskFull⟩ ∧
    (runProgram envPartialFail).writes = (tryBody envPartialFail).writes :=
  ⟨c8_no_rollback.1 envPartialFail [sheetAlpha] sheetBeta [sheetGamma]
      diskFull (runSheets envPartialFail [sheetAlpha]).console
      (runSheets envPartialFail [sheetAlpha]).writes rfl rfl,
   c8_no_rollback.2 envPartialFail⟩

/-- C9 counterexample: a date/time value in the Header Row becomes a
record key, and `json.dump` raises `TypeError` on non-primitive keys
(`default=str` applies only to values) — so serialization does fail on
such a cell value, contradicting the claim's unrestricted "every cell
value". -/
theorem c9_counterexample :
    isPrimitive (Cell.other "2024-01-01 00:00:00") = false ∧
    (processSheet envOffers
        ⟨"Dates", [[Cell.other "2024-01-01 00:00:00"], [Cell.num 5]]⟩).2 =
      Except.error typeError :=
  ⟨rfl, rfl⟩

/-- C9 (amended): every non-primitive cell value serialized as a record
value appears as its canonical string form (never as a native structured
value), and record serialization cannot fail because of values — it
succeeds whenever all record keys are serializable. -/
theorem c9_value_coercion (c : Cell) (h : isPrimitive c = false) :
    cellToJson c = Json.str (pyStr c) ∧
    ∀ rec : List (Cell × Cell),
      (∀ p ∈ rec, (keyToString p.1).isSome = true) →
      (recordToJson rec).isSome = true := by
  constructor
  · cases c with
    | null => exact Bool.noConfusion h
    | str s => exact Bool.noConfusion h
    | num q => exact Bool.noConfusion h
    | bool b => exact Bool.noConfusion h
    | other s => rfl
  · intro rec hk
    unfold recordToJson
    have hm : (optMapList
        (fun p =>
          match keyToString p.1 with
          | some k => some (k, cellToJson p.2)
          | none => none) rec).isSome = true := by
      apply optMapList_isSome
      intro p hp
      have hkp := hk p hp
      cases hkk : keyToString p.1 with
      | none => rw [hkk] at hkp; cases hkp
      | some k => simp [hkk]
    obtain ⟨fields, hf⟩ := Option.isSome_iff_exists.mp hm
    rw [hf]
    rfl

/-- C9 witness: a concrete date value serializes to its string form, and
a record pairing a string key with that date serializes successfully. -/
theorem c9_value_coercion_witness :
    cellToJson (Cell.other "2024-01-01 00:00:00") =
      Json.str (pyStr (Cell.other "2024-01-01 00:00:00")) ∧
    (recordToJson
        [(Cell.str "Date", Cell.other "2024-01-01 00:00:00")]).isSome =
      true :=
  ⟨(c9_value_coercion (Cell.other "2024-01-01 00:00:00") rfl).1,
   (c9_value_coercion (Cell.other "2024-01-01 00:00:00") rfl).2
     [(Cell.str "Date", Cell.other "2024-01-01 00:00:00")] (by decide)⟩
